import Mathlib

/-!
Shallow embedding of the logranger syslog-routing server (Go), covering the
rule/ruleset model (`rule.go`), the dispatcher `processMessage` and the
connection handler `HandleConnection` (`server.go`), ruleset loading and the
hot-reload path (`NewRuleset`, `setRules`, `ReloadConfig`), the template
sublayer (`template/template.go`), and the file action plugin
(`plugins/actions/file/file.go`).

External collaborators (the Go regexp engine, the text/template machine, the
filesystem, wall-clock time, and the fig deserializer) are embedded as
explicit parameters: a `Regexp` is a pair of matching functions, the template
engine is a `TplEngine` record, file-system responses are an `FsOracle`, and
the result of reading plus deserializing the ruleset file is an
`Except String (List Rule)` argument.  Side effects (action invocations,
log records, file writes) are reified as event lists.
-/

/-- Model of a compiled Go `*regexp.Regexp` as used by the dispatcher:
`MatchString` reports whether the pattern matches somewhere in the string and
`FindStringSubmatch` returns the submatch list (whole match first, then the
capturing groups).  The regex engine itself is an external collaborator, so a
regexp is embedded as its observable matching behaviour. -/
structure Regexp where
  MatchString : String → Bool
  FindStringSubmatch : String → List String

/-- Model of Go `any` values appearing in a rule's action-configuration map
(`map[string]any` after fig deserialization): strings, booleans, integers,
nil, or a nested string-keyed map. -/
inductive ConfValue where
  | null : ConfValue
  | str (s : String) : ConfValue
  | bool (b : Bool) : ConfValue
  | int (n : Int) : ConfValue
  | map (entries : List (String × ConfValue)) : ConfValue

/-- A Go `map[string]any`, embedded as an association list (keys unique). -/
abbrev ConfMap := List (String × ConfValue)

/-- Lookup in a `ConfMap`; `none` corresponds to the Go map lookup yielding
`nil` because the key is absent. -/
def cmLookup (m : ConfMap) (k : String) : Option ConfValue :=
  (m.find? (fun p => p.1 == k)).map (fun p => p.2)

/-- Model of a `parsesyslog.LogMsg`: the fields the core reads.  `Message` is
the body (`lm.Message.String()`), `Timestamp`, `SeverityName` and
`FacilityName` stand for `lm.Timestamp`, `lm.Severity.String()` and
`lm.Facility.String()` of the external parser package. -/
structure LogMsg where
  Hostname : String
  Message : String
  AppName : String
  Timestamp : String
  SeverityName : String
  FacilityName : String
deriving DecidableEq

/-- A `Rule` of `rule.go`: id, required body-match regexp, optional
host-match regexp (`HostMatch *regexp.Regexp`, `nil` embedded as `none`), and
the per-rule action-configuration map `Actions map[string]any`. -/
structure Rule where
  ID : String
  HostMatch : Option Regexp
  Actions : ConfMap
  Regexp : Regexp

/-- A `Ruleset` of `rule.go`: the ordered list of rules. -/
structure Ruleset where
  Rule : List Rule

/-- An action's `Process(logmessage, matchgroup, confmap) error` body
(`plugins/action.go`), embedded as a function returning `Except`: `.ok ()`
is a `nil` error, `.error e` a non-nil one. -/
abbrev ActionFn := LogMsg → List String → ConfMap → Except String Unit

/-- One enumeration of the `actions.Actions` registry map (name → action).
Go ranges over the map in an unspecified order, so a `Registry` value
represents one particular enumeration order of the map's entries. -/
abbrev Registry := List (String × ActionFn)

/-- Observable events of one dispatch: an action invocation (with the rule id,
submatch list and the rule's action config it was given), and the error log
record `"failed to process action"` carrying the action name, rule id and
the error. -/
inductive Event where
  | invoke (action : String) (rule : String) (mg : List String) (cfg : ConfMap)
  | procError (action : String) (rule : String) (err : String)

/-- Whether an event is an action invocation. -/
def Event.isInvoke : Event → Bool
  | .invoke _ _ _ _ => true
  | .procError _ _ _ => false

/-- Host-match skip condition of `processMessage`:
`r.HostMatch != nil && !r.HostMatch.MatchString(lm.Hostname)`. -/
def hostMatchFails (r : Rule) (lm : LogMsg) : Bool :=
  match r.HostMatch with
  | none => false
  | some hm => !hm.MatchString lm.Hostname

/-- The per-rule body of the loop in `processMessage` (server.go): skip unless
the body regexp matches, skip if a present host-match rejects the hostname,
otherwise compute the submatch list and call every registry action with
`(lm, mg, r.Actions)`, logging (not propagating) each action error. -/
def processRule (reg : Registry) (r : Rule) (lm : LogMsg) : List Event :=
  if !r.Regexp.MatchString lm.Message then []
  else if hostMatchFails r lm then []
  else
    let mg := r.Regexp.FindStringSubmatch lm.Message
    reg.flatMap (fun p =>
      Event.invoke p.1 r.ID mg r.Actions ::
        (match p.2 lm mg r.Actions with
         | .ok _ => []
         | .error e => [Event.procError p.1 r.ID e]))

/-- `Server.processMessage` (server.go): if the ruleset is nil nothing
happens; otherwise every rule is processed in ruleset order.  The function
always returns `nil` (`none`), mirroring the Go `return nil`. -/
def processMessage (ruleset : Option Ruleset) (reg : Registry) (lm : LogMsg) :
    List Event × Option String :=
  match ruleset with
  | none => ([], none)
  | some rs => (rs.Rule.flatMap (fun r => processRule reg r lm), none)

/-- Model of Go `strings.EqualFold` on rule ids: equality under simple case
folding, embedded as equality of the per-character lowercase images (exact
for the ASCII ids the ruleset format uses). -/
def eqFold (a b : String) : Bool :=
  a.data.map Char.toLower == b.data.map Char.toLower

/-- The duplicate-id check loop of `NewRuleset` (rule.go): for each rule in
order, compare its id (via `strings.EqualFold`) against the accumulator of
already-seen ids; on the first hit return the
`"duplicate rule found: <id>"` error, otherwise append the id and continue. -/
def dupLoop : List Rule → List String → Except String Unit
  | [], _ => .ok ()
  | r :: rest, rna =>
    if rna.any (fun rn => eqFold r.ID rn) then
      .error ("duplicate rule found: " ++ r.ID)
    else
      dupLoop rest (rna ++ [r.ID])

/-- `NewRuleset` (rule.go): reading the rule file (`os.Stat`) and
deserializing it (`fig.Load`) are external I/O, embedded as the `load`
argument holding their combined outcome.  On a load failure the error is
returned; otherwise the duplicate-id loop runs and on a duplicate the
function returns `nil` plus the error (so no ruleset value escapes),
else the loaded rules. -/
def NewRuleset (load : Except String (List Rule)) : Except String (List Rule) :=
  match load with
  | .error e => .error ("failed to load ruleset: " ++ e)
  | .ok rules =>
    match dupLoop rules [] with
    | .error e => .error e
    | .ok _ => .ok rules

/-- The server configuration, reduced to the field the modelled paths read
(`Server.RuleFile`); the rest of `Config` is irrelevant to the claims. -/
structure Config where
  RuleFile : String

/-- The mutable server state touched by the reload path: the current config
and the current ruleset reference (`nil` embedded as `none`). -/
structure Server where
  conf : Config
  ruleset : Option Ruleset

/-- `Server.setRules` (server.go): call `NewRuleset`; on error return the
wrapped error leaving `s.ruleset` untouched; on success overwrite
`s.ruleset` with the freshly loaded ruleset. -/
def setRules (load : Except String (List Rule)) (s : Server) :
    Server × Option String :=
  match NewRuleset load with
  | .error e => (s, some ("failed to read ruleset: " ++ e))
  | .ok rules => ({ s with ruleset := some ⟨rules⟩ }, none)

/-- `Server.ReloadConfig` (server.go): reload the config (`NewConfig`, an
external read embedded as `loadCfg`); on failure return the wrapped error.
On success install the new config and call `setRules` with the outcome
`loadRules` of reading the (new) rule file; on failure return the wrapped
error, else `nil`. -/
def ReloadConfig (loadCfg : Except String Config)
    (loadRules : Except String (List Rule)) (s : Server) :
    Server × Option String :=
  match loadCfg with
  | .error e => (s, some ("failed to reload config: " ++ e))
  | .ok c =>
    let s1 : Server := { s with conf := c }
    match setRules loadRules s1 with
    | (s2, some e) => (s2, some ("failed to reload ruleset: " ++ e))
    | (s2, none) => (s2, none)

/-- Outcome of one `parser.ParseReader` call in the read loop of
`HandleConnection`, classified the way the Go code classifies the error:
success, a `*net.OpError` transport error, `io.EOF`, or any other (parse)
error. -/
inductive ParseResult where
  | ok (lm : LogMsg)
  | netErr (e : String)
  | eof
  | parseErr (e : String)

/-- Input of one read-loop iteration: either `conn.SetDeadline` fails, or it
succeeds and the parser returns a `ParseResult`. -/
inductive ReadEvent where
  | deadlineErr
  | parsed (r : ParseResult)

/-- Observable events of the connection handler: a message handed to
`processMessage`, the log records for the four error classes (the
network-error and EOF records only appear with extended logging), and the
deferred `conn.Close()` on handler exit. -/
inductive HCEvent where
  | dispatch (lm : LogMsg)
  | logParseError (e : String)
  | logNetError (e : String)
  | logEOF
  | logDeadlineError
  | close

/-- `Server.HandleConnection` (server.go): the `ReadLoop` over the stream of
per-iteration inputs.  A deadline failure logs and returns; a
`*net.OpError` or `io.EOF` from the parser logs (extended only) and
returns; any other parse error logs and continues the loop; a parsed
message is dispatched and the loop continues.  The deferred `conn.Close()`
fires on every return path, recorded as a final `close` event together with
the `true` termination flag; an exhausted input list models a handler still
blocked in `ParseReader` (`false`, not yet closed). -/
def HandleConnection (extended : Bool) : List ReadEvent → List HCEvent × Bool
  | [] => ([], false)
  | .deadlineErr :: _ => ([.logDeadlineError, .close], true)
  | .parsed (.netErr e) :: _ =>
    ((if extended then [HCEvent.logNetError e] else []) ++ [.close], true)
  | .parsed .eof :: _ =>
    ((if extended then [HCEvent.logEOF] else []) ++ [.close], true)
  | .parsed (.parseErr e) :: rest =>
    let t := HandleConnection extended rest
    (.logParseError e :: t.1, t.2)
  | .parsed (.ok lm) :: rest =>
    let t := HandleConnection extended rest
    (.dispatch lm :: t.1, t.2)

/-- A value bound in the template data map `dm` of `template.Compile`:
the submatch list, a string field, or the integer epoch. -/
inductive DataVal where
  | strList (l : List String) : DataVal
  | str (s : String) : DataVal
  | int (n : Int) : DataVal

/-- The escape-sequence substitution at the top of `template.Compile`:
`strings.ReplaceAll` of the two-character sequences for newline, tab and
carriage return by the control characters, in that order. -/
def escapeTpl (ot : String) : String :=
  ((ot.replace "\\n" "\n").replace "\\t" "\t").replace "\\r" "\r"

/-- The data map `dm` built by `template.Compile`, in insertion order.  The
two current-time bindings are impure reads of `time.Now()`, embedded as the
`nowRfc3339` and `nowUnix` arguments. -/
def tplDataMap (lm : LogMsg) (mg : List String) (nowRfc3339 : String)
    (nowUnix : Int) : List (String × DataVal) :=
  [("match", .strList mg),
   ("hostname", .str lm.Hostname),
   ("timestamp", .str lm.Timestamp),
   ("now_rfc3339", .str nowRfc3339),
   ("now_unix", .int nowUnix),
   ("severity", .str lm.SeverityName),
   ("facility", .str lm.FacilityName),
   ("appname", .str lm.AppName),
   ("original_message", .str lm.Message)]

/-- The external Go `text/template` machine, embedded by its two observable
operations: `parse` (template.New(...).Parse) returning a parsed template or
a syntax error, and `exec` (tpl.Execute against a `strings.Builder`)
returning the text written to the builder so far together with an optional
execution error.  `T` is the engine's parsed-template type. -/
structure TplEngine (T : Type) where
  parse : String → Except String T
  exec : T → List (String × DataVal) → String × Option String

/-- `template.Compile` (template/template.go): substitute the escape
sequences, parse the template (on a parse error return the — still empty —
builder content plus the wrapped error), build the data map, execute (on an
execution error return the partial builder content plus the wrapped error),
else return the rendered text and `nil`. -/
def Compile {T : Type} (eng : TplEngine T) (nowRfc3339 : String) (nowUnix : Int)
    (lm : LogMsg) (mg : List String) (ot : String) : String × Option String :=
  match eng.parse (escapeTpl ot) with
  | .error e => ("", some ("failed to create template: " ++ e))
  | .ok tpl =>
    match eng.exec tpl (tplDataMap lm mg nowRfc3339 nowUnix) with
    | (out, some e) => (out, some ("failed to compile template: " ++ e))
    | (out, none) => (out, none)

/-- File-system side effects of the file action, reified: opening the output
path (with the append flag that was chosen), writing the rendered text, and
the `Sync` call. -/
inductive FileOp where
  | openFile (path : String) (append : Bool)
  | write (path : String) (content : String)
  | sync (path : String)

/-- Responses of the external file system to the three calls the file action
makes: `none` is success, `some e` the error returned by that call. -/
structure FsOracle where
  openErr : Option String
  writeErr : Option String
  syncErr : Option String

/-- `File.Process` (plugins/actions/file/file.go): if the config map has no
`"file"` entry (Go `cm["file"] == nil`, i.e. key absent or bound to nil)
return `nil` at once; a non-map `"file"` value, a missing/empty
`output_template` or a missing/empty `output_filepath` are errors; otherwise
open the file (append mode unless `overwrite` is `true`), render the template
via `template.Compile` and write plus sync the result, propagating each
step's error.  Returns the Go error plus the reified file operations. -/
def File.Process {T : Type} (eng : TplEngine T) (nowRfc3339 : String)
    (nowUnix : Int) (fs : FsOracle) (lm : LogMsg) (mg : List String)
    (cm : ConfMap) : Except String Unit × List FileOp :=
  match cmLookup cm "file" with
  | none => (.ok (), [])
  | some .null => (.ok (), [])
  | some v =>
    match v with
    | .map c =>
      match cmLookup c "output_template" with
      | some (.str ot) =>
        if ot = "" then
          (.error "not output_template configured for file action", [])
        else
          match cmLookup c "output_filepath" with
          | some (.str fn) =>
            if fn = "" then
              (.error "no output_filename configured for file action", [])
            else
              let append :=
                match cmLookup c "overwrite" with
                | some (.bool true) => false
                | _ => true
              match fs.openErr with
              | some e =>
                (.error ("failed to open file for writing in file action: "
                  ++ e), [])
              | none =>
                match Compile eng nowRfc3339 nowUnix lm mg ot with
                | (_, some e) => (.error e, [.openFile fn append])
                | (t, none) =>
                  match fs.writeErr with
                  | some e =>
                    (.error ("failed to write log message to file: " ++ e),
                      [.openFile fn append])
                  | none =>
                    match fs.syncErr with
                    | some e =>
                      (.error ("failed to sync memory to file: " ++ e),
                        [.openFile fn append, .write fn t])
                    | none =>
                      (.ok (), [.openFile fn append, .write fn t, .sync fn])
          | _ => (.error "no output_filename configured for file action", [])
      | _ => (.error "not output_template configured for file action", [])
    | _ => (.error "missing configuration for file action", [])
/-- 32-bit truncation. -/
def w32 (n : Nat) : Nat := n % 4294967296

/-- 64-bit truncation. -/
def w64 (n : Nat) : Nat := n % 18446744073709551616

/-- Right rotation of a 32-bit word (argument assumed `< 2^32`, `0 < n < 32`). -/
def rotr32 (n x : Nat) : Nat := (x % 2 ^ n) * 2 ^ (32 - n) + x / 2 ^ n

/-- Left rotation of a 32-bit word. -/
def rotl32 (n x : Nat) : Nat := (x % 2 ^ (32 - n)) * 2 ^ n + x / 2 ^ (32 - n)

/-- Right rotation of a 64-bit word. -/
def rotr64 (n x : Nat) : Nat := (x % 2 ^ n) * 2 ^ (64 - n) + x / 2 ^ n

/-- Bitwise complement of a 32-bit word. -/
def not32 (x : Nat) : Nat := 4294967295 - x

/-- Bitwise complement of a 64-bit word. -/
def not64 (x : Nat) : Nat := 18446744073709551615 - x

/-- Big-endian byte encoding of `n` into `k` bytes. -/
def beBytes : Nat → Nat → List Nat
  | 0, _ => []
  | k + 1, n => beBytes k (n / 256) ++ [n % 256]

/-- Big-endian word from a byte list. -/
def toWordBE (bs : List Nat) : Nat := bs.foldl (fun acc b => acc * 256 + b) 0

/-- Splits a list into chunks of `n` (fuel-driven structural recursion). -/
def chunksFuel {α : Type} (n : Nat) : Nat → List α → List (List α)
  | 0, _ => []
  | _, [] => []
  | fuel + 1, l => l.take n :: chunksFuel n fuel (l.drop n)

/-- Merkle–Damgård padding with a `lenBytes`-byte big-endian length field,
block size `bs`: append `128`, zeros, then the bit length. -/
def mdPad (bs lenBytes : Nat) (msg : List Nat) : List Nat :=
  let len := msg.length
  let zeros := (bs - lenBytes + bs - ((len + 1) % bs)) % bs
  msg ++ [128] ++ List.replicate zeros 0 ++ beBytes lenBytes (len * 8)

/-- SHA-256 round constants. -/
def sha256K : List Nat :=
  [1116352408, 1899447441, 3049323471, 3921009573, 961987163, 1508970993,
   2453635748, 2870763221, 3624381080, 310598401, 607225278, 1426881987,
   1925078388, 2162078206, 2614888103, 3248222580, 3835390401, 4022224774,
   264347078, 604807628, 770255983, 1249150122, 1555081692, 1996064986,
   2554220882, 2821834349, 2952996808, 3210313671, 3336571891, 3584528711,
   113926993, 338241895, 666307205, 773529912, 1294757372, 1396182291,
   1695183700, 1986661051, 2177026350, 2456956037, 2730485921, 2820302411,
   3259730800, 3345764771, 3516065817, 3600352804, 4094571909, 275423344,
   430227734, 506948616, 659060556, 883997877, 958139571, 1322822218,
   1537002063, 1747873779, 1955562222, 2024104815, 2227730452, 2361852424,
   2428436474, 2756734187, 3204031479, 3329325298]

/-- SHA-256 initial hash value. -/
def sha256H0 : List Nat :=
  [1779033703, 3144134277, 1013904242, 2773480762, 1359893119, 2600822924,
   528734635, 1541459225]

/-- Compression state of the SHA-256/SHA-512 round function. -/
structure Hash8 where
  a : Nat
  b : Nat
  c : Nat
  d : Nat
  e : Nat
  f : Nat
  g : Nat
  h : Nat

def sha256ssig0 (x : Nat) : Nat := rotr32 7 x ^^^ rotr32 18 x ^^^ (x / 8)
def sha256ssig1 (x : Nat) : Nat := rotr32 17 x ^^^ rotr32 19 x ^^^ (x / 1024)
def sha256bsig0 (x : Nat) : Nat := rotr32 2 x ^^^ rotr32 13 x ^^^ rotr32 22 x
def sha256bsig1 (x : Nat) : Nat := rotr32 6 x ^^^ rotr32 11 x ^^^ rotr32 25 x

/-- SHA-2 message-schedule extension, `fuel` further words. -/
def sha256Extend : Nat → List Nat → List Nat
  | 0, w => w
  | fuel + 1, w =>
    let n := w.length
    let x := w32 (sha256ssig1 (w.getD (n - 2) 0) + w.getD (n - 7) 0 +
      sha256ssig0 (w.getD (n - 15) 0) + w.getD (n - 16) 0)
    sha256Extend fuel (w ++ [x])

/-- One SHA-256 round. -/
def sha256Round (st : Hash8) (kw : Nat × Nat) : Hash8 :=
  let ch := (st.e &&& st.f) ^^^ (not32 st.e &&& st.g)
  let maj := (st.a &&& st.b) ^^^ (st.a &&& st.c) ^^^ (st.b &&& st.c)
  let t1 := w32 (st.h + sha256bsig1 st.e + ch + kw.1 + kw.2)
  let t2 := w32 (sha256bsig0 st.a + maj)
  ⟨w32 (t1 + t2), st.a, st.b, st.c, w32 (st.d + t1), st.e, st.f, st.g⟩

/-- SHA-256 block compression. -/
def sha256Block (hs : List Nat) (block : List Nat) : List Nat :=
  let w := sha256Extend 48 ((chunksFuel 4 16 block).map toWordBE)
  let st0 : Hash8 := ⟨hs.getD 0 0, hs.getD 1 0, hs.getD 2 0, hs.getD 3 0,
    hs.getD 4 0, hs.getD 5 0, hs.getD 6 0, hs.getD 7 0⟩
  let st := (sha256K.zip w).foldl sha256Round st0
  [w32 (hs.getD 0 0 + st.a), w32 (hs.getD 1 0 + st.b), w32 (hs.getD 2 0 + st.c),
   w32 (hs.getD 3 0 + st.d), w32 (hs.getD 4 0 + st.e), w32 (hs.getD 5 0 + st.f),
   w32 (hs.getD 6 0 + st.g), w32 (hs.getD 7 0 + st.h)]

/-- SHA-256 digest of a byte list. -/
def sha256Bytes (msg : List Nat) : List Nat :=
  let padded := mdPad 64 8 msg
  let blocks := chunksFuel 64 (padded.length / 64) padded
  (blocks.foldl sha256Block sha256H0).flatMap (beBytes 4)

/-- The sixteen lowercase hexadecimal digit characters. -/
def hexAlphabet : List Char := "0123456789abcdef".data

/-- Lowercase hexadecimal digit, as printed by Go `fmt %x`. -/
def hexDigit (n : Nat) : Char := hexAlphabet.getD n '0'

/-- Two lowercase hex digits of one byte. -/
def hexByte (b : Nat) : List Char := [hexDigit (b / 16), hexDigit (b % 16)]

/-- Lowercase hex rendering of a byte list (Go `fmt.Sprintf("%x", ...)`). -/
def hexString (bs : List Nat) : String := String.mk (bs.flatMap hexByte)

/-- SHA-1 initial state. -/
def sha1H0 : List Nat :=
  [1732584193, 4023233417, 2562383102, 271733878, 3285377520]

/-- SHA-1 message-schedule extension, `fuel` further words. -/
def sha1Extend : Nat → List Nat → List Nat
  | 0, w => w
  | fuel + 1, w =>
    let n := w.length
    let x := rotl32 1 (w.getD (n - 3) 0 ^^^ w.getD (n - 8) 0 ^^^
      w.getD (n - 14) 0 ^^^ w.getD (n - 16) 0)
    sha1Extend fuel (w ++ [x])

/-- Compression state of the SHA-1 round function. -/
structure Hash5 where
  a : Nat
  b : Nat
  c : Nat
  d : Nat
  e : Nat

/-- One SHA-1 round, `i` the round index. -/
def sha1Round (st : Hash5) (iw : Nat × Nat) : Hash5 :=
  let f :=
    if iw.1 < 20 then (st.b &&& st.c) ||| (not32 st.b &&& st.d)
    else if iw.1 < 40 then st.b ^^^ st.c ^^^ st.d
    else if iw.1 < 60 then
      (st.b &&& st.c) ||| (st.b &&& st.d) ||| (st.c &&& st.d)
    else st.b ^^^ st.c ^^^ st.d
  let k :=
    if iw.1 < 20 then 1518500249
    else if iw.1 < 40 then 1859775393
    else if iw.1 < 60 then 2400959708
    else 3395469782
  let t := w32 (rotl32 5 st.a + f + st.e + k + iw.2)
  ⟨t, st.a, rotl32 30 st.b, st.c, st.d⟩

/-- SHA-1 block compression. -/
def sha1Block (hs : List Nat) (block : List Nat) : List Nat :=
  let w := sha1Extend 64 ((chunksFuel 4 16 block).map toWordBE)
  let st0 : Hash5 := ⟨hs.getD 0 0, hs.getD 1 0, hs.getD 2 0, hs.getD 3 0,
    hs.getD 4 0⟩
  let st := w.enum.foldl sha1Round st0
  [w32 (hs.getD 0 0 + st.a), w32 (hs.getD 1 0 + st.b), w32 (hs.getD 2 0 + st.c),
   w32 (hs.getD 3 0 + st.d), w32 (hs.getD 4 0 + st.e)]

/-- SHA-1 digest of a byte list. -/
def sha1Bytes (msg : List Nat) : List Nat :=
  let padded := mdPad 64 8 msg
  let blocks := chunksFuel 64 (padded.length / 64) padded
  (blocks.foldl sha1Block sha1H0).flatMap (beBytes 4)

/-- SHA-512 round constants. -/
def sha512K : List Nat :=
  [4794697086780616226, 8158064640168781261, 13096744586834688815,
   16840607885511220156, 4131703408338449720, 6480981068601479193,
   10538285296894168987, 12329834152419229976, 15566598209576043074,
   1334009975649890238, 2608012711638119052, 6128411473006802146,
   8268148722764581231, 9286055187155687089, 11230858885718282805,
   13951009754708518548, 16472876342353939154, 17275323862435702243,
   1135362057144423861, 2597628984639134821, 3308224258029322869,
   5365058923640841347, 6679025012923562964, 8573033837759648693,
   10970295158949994411, 12119686244451234320, 12683024718118986047,
   13788192230050041572, 14330467153632333762, 15395433587784984357,
   489312712824947311, 1452737877330783856, 2861767655752347644,
   3322285676063803686, 5560940570517711597, 5996557281743188959,
   7280758554555802590, 8532644243296465576, 9350256976987008742,
   10552545826968843579, 11727347734174303076, 12113106623233404929,
   14000437183269869457, 14369950271660146224, 15101387698204529176,
   15463397548674623760, 17586052441742319658, 1182934255886127544,
   1847814050463011016, 2177327727835720531, 2830643537854262169,
   3796741975233480872, 4115178125766777443, 5681478168544905931,
   6601373596472566643, 7507060721942968483, 8399075790359081724,
   8693463985226723168, 9568029438360202098, 10144078919501101548,
   10430055236837252648, 11840083180663258601, 13761210420658862357,
   14299343276471374635, 14566680578165727644, 15097957966210449927,
   16922976911328602910, 17689382322260857208, 500013540394364858,
   748580250866718886, 1242879168328830382, 1977374033974150939,
   2944078676154940804, 3659926193048069267, 4368137639120453308,
   4836135668995329356, 5532061633213252278, 6448918945643986474,
   6902733635092675308, 7801388544844847127]

/-- SHA-512 initial hash value. -/
def sha512H0 : List Nat :=
  [7640891576956012808, 13503953896175478587, 4354685564936845355,
   11912009170470909681, 5840696475078001361, 11170449401992604703,
   2270897969802886507, 6620516959819538809]

def sha512ssig0 (x : Nat) : Nat := rotr64 1 x ^^^ rotr64 8 x ^^^ (x / 128)
def sha512ssig1 (x : Nat) : Nat := rotr64 19 x ^^^ rotr64 61 x ^^^ (x / 64)
def sha512bsig0 (x : Nat) : Nat := rotr64 28 x ^^^ rotr64 34 x ^^^ rotr64 39 x
def sha512bsig1 (x : Nat) : Nat := rotr64 14 x ^^^ rotr64 18 x ^^^ rotr64 41 x

/-- SHA-512 message-schedule extension, `fuel` further words. -/
def sha512Extend : Nat → List Nat → List Nat
  | 0, w => w
  | fuel + 1, w =>
    let n := w.length
    let x := w64 (sha512ssig1 (w.getD (n - 2) 0) + w.getD (n - 7) 0 +
      sha512ssig0 (w.getD (n - 15) 0) + w.getD (n - 16) 0)
    sha512Extend fuel (w ++ [x])

/-- One SHA-512 round. -/
def sha512Round (st : Hash8) (kw : Nat × Nat) : Hash8 :=
  let ch := (st.e &&& st.f) ^^^ (not64 st.e &&& st.g)
  let maj := (st.a &&& st.b) ^^^ (st.a &&& st.c) ^^^ (st.b &&& st.c)
  let t1 := w64 (st.h + sha512bsig1 st.e + ch + kw.1 + kw.2)
  let t2 := w64 (sha512bsig0 st.a + maj)
  ⟨w64 (t1 + t2), st.a, st.b, st.c, w64 (st.d + t1), st.e, st.f, st.g⟩

/-- SHA-512 block compression. -/
def sha512Block (hs : List Nat) (block : List Nat) : List Nat :=
  let w := sha512Extend 64 ((chunksFuel 8 16 block).map toWordBE)
  let st0 : Hash8 := ⟨hs.getD 0 0, hs.getD 1 0, hs.getD 2 0, hs.getD 3 0,
    hs.getD 4 0, hs.getD 5 0, hs.getD 6 0, hs.getD 7 0⟩
  let st := (sha512K.zip w).foldl sha512Round st0
  [w64 (hs.getD 0 0 + st.a), w64 (hs.getD 1 0 + st.b), w64 (hs.getD 2 0 + st.c),
   w64 (hs.getD 3 0 + st.d), w64 (hs.getD 4 0 + st.e), w64 (hs.getD 5 0 + st.f),
   w64 (hs.getD 6 0 + st.g), w64 (hs.getD 7 0 + st.h)]

/-- SHA-512 digest of a byte list. -/
def sha512Bytes (msg : List Nat) : List Nat :=
  let padded := mdPad 128 16 msg
  let blocks := chunksFuel 128 (padded.length / 128) padded
  (blocks.foldl sha512Block sha512H0).flatMap (beBytes 8)

/-- UTF-8 encoding of one character (standard 1–4 byte scheme); the digest
helpers hash the UTF-8 bytes of their argument, as Go strings are UTF-8. -/
def utf8EncodeChar (c : Char) : List Nat :=
  let n := c.toNat
  if n < 128 then [n]
  else if n < 2048 then [192 + n / 64, 128 + n % 64]
  else if n < 65536 then [224 + n / 4096, 128 + n / 64 % 64, 128 + n % 64]
  else [240 + n / 262144, 128 + n / 4096 % 64, 128 + n / 64 % 64, 128 + n % 64]

/-- UTF-8 byte sequence of a string. -/
def utf8Bytes (s : String) : List Nat := s.data.flatMap utf8EncodeChar

/-- `SHAAlgo` of template/template.go: selector for the three digest
algorithms. -/
inductive SHAAlgo where
  | SHA1
  | SHA256
  | SHA512

/-- `toSHA` (template/template.go): write the string into the selected hash
and render the sum with `fmt %x` (lowercase hexadecimal).  The Go `default`
and write-error branches returning `""` are unreachable here: the selector
is a closed enum and `hash.Hash` writes never fail. -/
def toSHA (value : String) (algo : SHAAlgo) : String :=
  match algo with
  | .SHA1 => hexString (sha1Bytes (utf8Bytes value))
  | .SHA256 => hexString (sha256Bytes (utf8Bytes value))
  | .SHA512 => hexString (sha512Bytes (utf8Bytes value))

/-- `FuncMap.ToSHA1` (template/template.go). -/
def FuncMap.ToSHA1 (value : String) : String := toSHA value .SHA1

/-- `FuncMap.ToSHA256` (template/template.go). -/
def FuncMap.ToSHA256 (value : String) : String := toSHA value .SHA256

/-- `FuncMap.ToSHA512` (template/template.go). -/
def FuncMap.ToSHA512 (value : String) : String := toSHA value .SHA512

theorem processRule_eq_of_pass (reg : Registry) (r : Rule) (lm : LogMsg)
    (hb : r.Regexp.MatchString lm.Message = true)
    (hh : hostMatchFails r lm = false) :
    processRule reg r lm
      = reg.flatMap (fun p =>
          Event.invoke p.1 r.ID (r.Regexp.FindStringSubmatch lm.Message)
              r.Actions ::
            (match p.2 lm (r.Regexp.FindStringSubmatch lm.Message) r.Actions
                with
             | .ok _ => []
             | .error e => [Event.procError p.1 r.ID e])) := by
  simp [processRule, hb, hh]

theorem invoke_mem_processRule (reg : Registry) (r : Rule) (lm : LogMsg)
    (n : String) (a : ActionFn) (ha : (n, a) ∈ reg)
    (hb : r.Regexp.MatchString lm.Message = true)
    (hh : hostMatchFails r lm = false) :
    Event.invoke n r.ID (r.Regexp.FindStringSubmatch lm.Message) r.Actions
      ∈ processRule reg r lm := by
  rw [processRule_eq_of_pass reg r lm hb hh]
  exact List.mem_flatMap.mpr ⟨(n, a), ha, List.mem_cons_self _ _⟩

theorem mem_processMessage_of_mem_rule (rs : Ruleset) (reg : Registry)
    (lm : LogMsg) (r : Rule) (ev : Event) (hr : r ∈ rs.Rule)
    (he : ev ∈ processRule reg r lm) :
    ev ∈ (processMessage (some rs) reg lm).1 := by
  simpa [processMessage] using List.mem_flatMap.mpr ⟨r, hr, he⟩

/-- C1: for every message and loaded ruleset, the dispatcher evaluates every
rule in ruleset order without stopping at the first match: whenever two
rules of the ruleset both pass the body match and (when present) the host
match, every registered action is invoked for both of them. -/
theorem processMessage_fires_all_matching_rules (rs : Ruleset)
    (reg : Registry) (lm : LogMsg) (r1 r2 : Rule) (n1 n2 : String)
    (a1 a2 : ActionFn)
    (hr1 : r1 ∈ rs.Rule) (hr2 : r2 ∈ rs.Rule)
    (hb1 : r1.Regexp.MatchString lm.Message = true)
    (hh1 : hostMatchFails r1 lm = false)
    (hb2 : r2.Regexp.MatchString lm.Message = true)
    (hh2 : hostMatchFails r2 lm = false)
    (ha1 : (n1, a1) ∈ reg) (ha2 : (n2, a2) ∈ reg) :
    Event.invoke n1 r1.ID (r1.Regexp.FindStringSubmatch lm.Message) r1.Actions
        ∈ (processMessage (some rs) reg lm).1 ∧
    Event.invoke n2 r2.ID (r2.Regexp.FindStringSubmatch lm.Message) r2.Actions
        ∈ (processMessage (some rs) reg lm).1 := by
  constructor
  · exact mem_processMessage_of_mem_rule rs reg lm r1 _ hr1
      (invoke_mem_processRule reg r1 lm n1 a1 ha1 hb1 hh1)
  · exact mem_processMessage_of_mem_rule rs reg lm r2 _ hr2
      (invoke_mem_processRule reg r2 lm n2 a2 ha2 hb2 hh2)

/-- An always-succeeding action, used by the concrete dispatch scenarios. -/
def okAction : ActionFn := fun _ _ _ => .ok ()

/-- A regexp matching exactly the body `"disk full"`, whole match as the
only submatch. -/
def diskRx : Regexp := ⟨fun s => s == "disk full", fun s => [s]⟩

/-- A two-rule ruleset in which both rules match the body `"disk full"`. -/
def twoRuleSet : Ruleset :=
  ⟨[⟨"rule-one", none, [], diskRx⟩, ⟨"rule-two", none, [], diskRx⟩]⟩

/-- A concrete message with body `"disk full"`. -/
def diskMsg : LogMsg := ⟨"host1", "disk full", "app", "ts", "notice", "kern"⟩

/-- A one-action registry enumeration holding the `file` action. -/
def fileReg : Registry := [("file", okAction)]

/-- Witness for C1: in the two-rule ruleset both rules fire for the
matching message. -/
theorem processMessage_fires_all_matching_rules_witness :
    Event.invoke "file" "rule-one" ["disk full"] []
        ∈ (processMessage (some twoRuleSet) fileReg diskMsg).1 ∧
    Event.invoke "file" "rule-two" ["disk full"] []
        ∈ (processMessage (some twoRuleSet) fileReg diskMsg).1 :=
  processMessage_fires_all_matching_rules twoRuleSet fileReg diskMsg
    ⟨"rule-one", none, [], diskRx⟩ ⟨"rule-two", none, [], diskRx⟩
    "file" "file" okAction okAction
    (List.mem_cons_self _ _)
    (List.mem_cons_of_mem _ (List.mem_cons_self _ _))
    rfl rfl rfl rfl
    (List.mem_cons_self _ _) (List.mem_cons_self _ _)

/-- C3: a rule with a host-match pattern that rejects the message hostname
contributes no action invocation at all, even when its body pattern matches:
its per-rule event list is empty and the dispatch output is the same as if
the rule were absent from the ruleset. -/
theorem processMessage_hostmatch_gates_actions (reg : Registry) (lm : LogMsg)
    (r : Rule) (hm : Regexp) (pre post : List Rule)
    (hhm : r.HostMatch = some hm)
    (hfail : hm.MatchString lm.Hostname = false) :
    processRule reg r lm = [] ∧
    (processMessage (some ⟨pre ++ r :: post⟩) reg lm).1
      = (processMessage (some ⟨pre ++ post⟩) reg lm).1 := by
  have hempty : processRule reg r lm = [] := by
    unfold processRule
    rcases hmb : r.Regexp.MatchString lm.Message with _ | _
    · simp
    · have : hostMatchFails r lm = true := by
        simp [hostMatchFails, hhm, hfail]
      simp [this]
  refine ⟨hempty, ?_⟩
  simp [processMessage, hempty]

/-- A regexp matching every body. -/
def anyRx : Regexp := ⟨fun _ => true, fun s => [s]⟩

/-- A regexp matching only the hostname `"host9"`. -/
def host9Rx : Regexp := ⟨fun s => s == "host9", fun s => [s]⟩

/-- A rule whose body pattern matches everything but whose host-match only
accepts `"host9"`. -/
def gatedRule : Rule := ⟨"gated", some host9Rx, [], anyRx⟩

/-- Witness for C3: the gated rule contributes nothing for a message from
`"host1"`, although its body pattern matches. -/
theorem processMessage_hostmatch_gates_actions_witness :
    processRule fileReg gatedRule diskMsg = [] ∧
    (processMessage (some ⟨[gatedRule]⟩) fileReg diskMsg).1
      = (processMessage (some ⟨[]⟩) fileReg diskMsg).1 :=
  processMessage_hostmatch_gates_actions fileReg diskMsg gatedRule host9Rx
    [] [] rfl rfl

theorem filter_flatMap {α β : Type} (l : List α) (f : α → List β)
    (p : β → Bool) :
    (l.flatMap f).filter p = l.flatMap (fun x => (f x).filter p) := by
  induction l with
  | nil => rfl
  | cons x xs ih => simp [List.flatMap_cons, List.filter_append, ih]

theorem processRule_filter_invoke (reg : Registry) (r : Rule) (lm : LogMsg) :
    (processRule reg r lm).filter Event.isInvoke
      = if r.Regexp.MatchString lm.Message && !hostMatchFails r lm then
          reg.map (fun p =>
            Event.invoke p.1 r.ID (r.Regexp.FindStringSubmatch lm.Message)
              r.Actions)
        else [] := by
  unfold processRule
  rcases hb : r.Regexp.MatchString lm.Message with _ | _
  · simp
  · rcases hh : hostMatchFails r lm with _ | _
    · simp only [Bool.not_false, Bool.true_and, if_true, Bool.not_true,
        ite_false, Bool.false_eq_true]
      rw [filter_flatMap]
      have : ∀ p : String × ActionFn,
          ((Event.invoke p.1 r.ID (r.Regexp.FindStringSubmatch lm.Message)
              r.Actions ::
            (match p.2 lm (r.Regexp.FindStringSubmatch lm.Message) r.Actions
                with
             | .ok _ => []
             | .error e => [Event.procError p.1 r.ID e])).filter
            Event.isInvoke)
          = [Event.invoke p.1 r.ID (r.Regexp.FindStringSubmatch lm.Message)
              r.Actions] := by
        intro p
        rcases p.2 lm (r.Regexp.FindStringSubmatch lm.Message) r.Actions with
          _ | _ <;> simp [Event.isInvoke]
      simp only [this]
      induction reg with
      | nil => rfl
      | cons q qs ihq => simp [List.flatMap_cons, ihq]
    · simp [hh]

theorem processMessage_filter_invoke_names (rs : Ruleset)
    (reg1 reg2 : Registry) (lm : LogMsg)
    (hn : reg1.map Prod.fst = reg2.map Prod.fst) :
    (processMessage (some rs) reg1 lm).1.filter Event.isInvoke
      = (processMessage (some rs) reg2 lm).1.filter Event.isInvoke := by
  simp only [processMessage]
  rw [filter_flatMap, filter_flatMap]
  congr 1
  funext r
  rw [processRule_filter_invoke, processRule_filter_invoke]
  have hmap : ∀ reg : Registry,
      reg.map (fun p =>
        Event.invoke p.1 r.ID (r.Regexp.FindStringSubmatch lm.Message)
          r.Actions)
      = (reg.map Prod.fst).map (fun n =>
          Event.invoke n r.ID (r.Regexp.FindStringSubmatch lm.Message)
            r.Actions) := by
    intro reg
    rw [List.map_map]
    rfl
  rw [hmap, hmap, hn]

/-- C4: an action error during a dispatch is logged together with the action
name and rule id, does not suppress any other invocation (the invocation
sequence is the one an all-succeeding registry with the same action names
would produce), and `processMessage` still returns `nil`. -/
theorem processMessage_action_error_isolated (rs : Ruleset) (reg : Registry)
    (lm : LogMsg) (r : Rule) (n : String) (a : ActionFn) (e : String)
    (hr : r ∈ rs.Rule)
    (hb : r.Regexp.MatchString lm.Message = true)
    (hh : hostMatchFails r lm = false)
    (ha : (n, a) ∈ reg)
    (he : a lm (r.Regexp.FindStringSubmatch lm.Message) r.Actions
      = .error e) :
    Event.procError n r.ID e ∈ (processMessage (some rs) reg lm).1 ∧
    (processMessage (some rs) reg lm).1.filter Event.isInvoke
      = (processMessage (some rs)
          (reg.map (fun p => (p.1, okAction))) lm).1.filter Event.isInvoke ∧
    (processMessage (some rs) reg lm).2 = none := by
  refine ⟨?_, ?_, by simp [processMessage]⟩
  · apply mem_processMessage_of_mem_rule rs reg lm r _ hr
    rw [processRule_eq_of_pass reg r lm hb hh]
    refine List.mem_flatMap.mpr ⟨(n, a), ha, ?_⟩
    show Event.procError n r.ID e ∈
      Event.invoke n r.ID (r.Regexp.FindStringSubmatch lm.Message)
          r.Actions ::
        (match a lm (r.Regexp.FindStringSubmatch lm.Message) r.Actions with
         | .ok _ => []
         | .error e2 => [Event.procError n r.ID e2])
    rw [he]
    exact List.mem_cons_of_mem _ (List.mem_cons_self _ _)
  · apply processMessage_filter_invoke_names
    rw [List.map_map]
    rfl

/-- An action that always fails with the error `"boom"`. -/
def boomAction : ActionFn := fun _ _ _ => .error "boom"

/-- A two-entry registry enumeration whose `file` action always fails. -/
def boomReg : Registry := [("file", boomAction), ("mail", okAction)]

/-- Witness for C4: the failing `file` action is logged with its name and
the rule id, the invocation sequence matches the all-succeeding registry,
and the dispatch returns `nil`. -/
theorem processMessage_action_error_isolated_witness :
    Event.procError "file" "rule-one" "boom"
        ∈ (processMessage (some twoRuleSet) boomReg diskMsg).1 ∧
    (processMessage (some twoRuleSet) boomReg diskMsg).1.filter
        Event.isInvoke
      = (processMessage (some twoRuleSet)
          (boomReg.map (fun p => (p.1, okAction))) diskMsg).1.filter
            Event.isInvoke ∧
    (processMessage (some twoRuleSet) boomReg diskMsg).2 = none :=
  processMessage_action_error_isolated twoRuleSet boomReg diskMsg
    ⟨"rule-one", none, [], diskRx⟩ "file" boomAction "boom"
    (List.mem_cons_self _ _) rfl rfl (List.mem_cons_self _ _) rfl

theorem eqFold_comm (a b : String) : eqFold a b = eqFold b a := by
  simp only [eqFold]
  rcases h : (a.data.map Char.toLower == b.data.map Char.toLower) with _ | _
  · rcases h2 : (b.data.map Char.toLower == a.data.map Char.toLower) with
      _ | _
    · rfl
    · rw [beq_iff_eq] at h2
      simp [h2] at h
  · rw [beq_iff_eq] at h
    simp [h]

theorem dupLoop_ok_iff (rules : List Rule) (rna : List String) :
    dupLoop rules rna = .ok () ↔
      ((∀ id1 ∈ rules.map Rule.ID, ∀ id2 ∈ rna, eqFold id1 id2 = false) ∧
       List.Pairwise (fun x y => eqFold x y = false) (rules.map Rule.ID)) := by
  induction rules generalizing rna with
  | nil => simp [dupLoop]
  | cons r rest ih =>
    simp only [dupLoop, List.map_cons, List.pairwise_cons]
    rcases hany : (rna.any fun rn => eqFold r.ID rn) with _ | _
    · have hrna : ∀ rn ∈ rna, eqFold r.ID rn = false := by
        intro rn hrn
        rcases hx : eqFold r.ID rn with _ | _
        · rfl
        · exfalso
          have : rna.any (fun x => eqFold r.ID x) = true :=
            List.any_eq_true.mpr ⟨rn, hrn, hx⟩
          rw [hany] at this
          exact Bool.false_ne_true this
      simp only [Bool.false_eq_true, if_false]
      rw [ih]
      constructor
      · rintro ⟨hA, hP⟩
        refine ⟨?_, ?_, hP⟩
        · intro id1 h1 id2 h2
          rcases List.mem_cons.mp h1 with h1 | h1
          · subst h1
            exact hrna id2 h2
          · exact hA id1 h1 id2 (List.mem_append.mpr (Or.inl h2))
        · intro y hy
          rw [eqFold_comm]
          exact hA y hy r.ID
            (List.mem_append.mpr (Or.inr (List.mem_cons_self _ _)))
      · rintro ⟨hA, hHead, hP⟩
        refine ⟨?_, hP⟩
        intro id1 h1 id2 h2
        rcases List.mem_append.mp h2 with h2 | h2
        · exact hA id1 (List.mem_cons_of_mem _ h1) id2 h2
        · have h3 : id2 = r.ID := by simpa using h2
          subst h3
          rw [eqFold_comm]
          exact hHead id1 h1
    · simp only [if_true]
      constructor
      · intro h
        exact Except.noConfusion h
      · rintro ⟨hA, _⟩
        rcases List.any_eq_true.mp hany with ⟨rn, hrn, hx⟩
        have h4 := hA r.ID (List.mem_cons_self _ _) rn hrn
        rw [h4] at hx
        exact absurd hx (by simp)

theorem pairwise_split {R : String → String → Prop}
    (l1 l2 l3 : List String) (a b : String)
    (h : List.Pairwise R (l1 ++ (a :: (l2 ++ (b :: l3))))) : R a b := by
  rcases List.pairwise_append.mp h with ⟨_, h2, _⟩
  rcases List.pairwise_cons.mp h2 with ⟨hHead, _⟩
  exact hHead b (List.mem_append.mpr (Or.inr (List.mem_cons_self _ _)))

/-- C2: a ruleset source holding two rules whose ids are equal under case
folding is rejected by `NewRuleset` with an error and `setRules` installs
nothing (the server state is unchanged and an error is reported); a source
with pairwise case-insensitively distinct ids passes the duplicate check
unchanged. -/
theorem NewRuleset_duplicate_check (rules pre mid post : List Rule)
    (r1 r2 : Rule)
    (hsplit : rules = pre ++ (r1 :: (mid ++ (r2 :: post))))
    (hdup : eqFold r1.ID r2.ID = true) :
    (∃ e, NewRuleset (.ok rules) = .error e) ∧
    (∀ s : Server,
      (setRules (.ok rules) s).1 = s ∧
      ∃ e, (setRules (.ok rules) s).2 = some e) ∧
    (∀ rules2 : List Rule,
      List.Pairwise (fun x y => eqFold x y = false) (rules2.map Rule.ID) →
      NewRuleset (.ok rules2) = .ok rules2) := by
  have hnotok : dupLoop rules [] ≠ .ok () := by
    intro hok
    have hP := (dupLoop_ok_iff _ _).mp hok |>.2
    have hshape : rules.map Rule.ID
        = pre.map Rule.ID
            ++ (r1.ID :: (mid.map Rule.ID ++ (r2.ID :: post.map Rule.ID))) := by
      rw [hsplit]
      simp
    rw [hshape] at hP
    have h6 := pairwise_split (pre.map Rule.ID) (mid.map Rule.ID)
      (post.map Rule.ID) r1.ID r2.ID hP
    rw [h6] at hdup
    exact absurd hdup (by simp)
  have herr : ∃ e, NewRuleset (.ok rules) = .error e := by
    rcases hd : dupLoop rules [] with e2 | u
    · exact ⟨e2, by simp [NewRuleset, hd]⟩
    · cases u
      exact absurd hd hnotok
  rcases herr with ⟨e, he⟩
  refine ⟨⟨e, he⟩, ?_, ?_⟩
  · intro s
    constructor
    · simp [setRules, he]
    · exact ⟨"failed to read ruleset: " ++ e, by simp [setRules, he]⟩
  · intro rules2 hP
    have hok : dupLoop rules2 [] = .ok () := by
      rw [dupLoop_ok_iff]
      exact ⟨fun id1 _ id2 h2 => absurd h2 (List.not_mem_nil id2), hP⟩
    simp [NewRuleset, hok]

/-- Two rules whose ids differ only in letter case. -/
def dupRuleA : Rule := ⟨"Disk-Full", none, [], diskRx⟩

/-- See `dupRuleA`; same id up to case. -/
def dupRuleB : Rule := ⟨"disk-full", none, [], diskRx⟩

/-- Witness for C2: loading a two-rule source whose ids collide under case
folding fails and leaves any server state unchanged, and a
pairwise-distinct source passes. -/
theorem NewRuleset_duplicate_check_witness :
    (∃ e, NewRuleset (.ok [dupRuleA, dupRuleB]) = .error e) ∧
    (∀ s : Server,
      (setRules (.ok [dupRuleA, dupRuleB]) s).1 = s ∧
      ∃ e, (setRules (.ok [dupRuleA, dupRuleB]) s).2 = some e) ∧
    (∀ rules2 : List Rule,
      List.Pairwise (fun x y => eqFold x y = false) (rules2.map Rule.ID) →
      NewRuleset (.ok rules2) = .ok rules2) :=
  NewRuleset_duplicate_check [dupRuleA, dupRuleB] [] [] [] dupRuleA
    dupRuleB rfl (by decide)

/-- C5: when the fresh ruleset load fails, `ReloadConfig` leaves the
previously installed ruleset in place and reports an error, so a subsequent
message is dispatched against the old ruleset exactly as before; only a
successful load (under a successfully reloaded config) replaces the
ruleset reference. -/
theorem ReloadConfig_preserves_ruleset_on_failure (s : Server)
    (loadCfg : Except String Config) (loadRules : Except String (List Rule))
    (e : String) (hfail : NewRuleset loadRules = .error e) :
    (ReloadConfig loadCfg loadRules s).1.ruleset = s.ruleset ∧
    (∃ msg, (ReloadConfig loadCfg loadRules s).2 = some msg) ∧
    (∀ reg lm,
      processMessage (ReloadConfig loadCfg loadRules s).1.ruleset reg lm
        = processMessage s.ruleset reg lm) ∧
    (∀ c rules2, loadCfg = .ok c → NewRuleset loadRules = .ok rules2 →
      (ReloadConfig loadCfg loadRules s).1.ruleset = some ⟨rules2⟩) := by
  have hstate : (ReloadConfig loadCfg loadRules s).1.ruleset = s.ruleset ∧
      ∃ msg, (ReloadConfig loadCfg loadRules s).2 = some msg := by
    rcases loadCfg with e2 | c
    · exact ⟨rfl, ⟨"failed to reload config: " ++ e2, rfl⟩⟩
    · constructor
      · simp [ReloadConfig, setRules, hfail]
      · exact ⟨"failed to reload ruleset: "
          ++ ("failed to read ruleset: " ++ e),
          by simp [ReloadConfig, setRules, hfail]⟩
  refine ⟨hstate.1, hstate.2, ?_, ?_⟩
  · intro reg lm
    rw [hstate.1]
  · intro c rules2 hc hok
    rw [hok] at hfail
    exact Except.noConfusion hfail

/-- A concrete server state holding the two-rule ruleset. -/
def oldServer : Server := ⟨⟨"etc/logranger.rules.toml"⟩, some twoRuleSet⟩

/-- Witness for C5: a reload whose ruleset source fails to deserialize
keeps the old two-rule ruleset active and reports an error. -/
theorem ReloadConfig_preserves_ruleset_on_failure_witness :
    (ReloadConfig (.ok ⟨"etc/logranger.rules.toml"⟩) (.error "bad toml")
        oldServer).1.ruleset = oldServer.ruleset ∧
    (∃ msg, (ReloadConfig (.ok ⟨"etc/logranger.rules.toml"⟩)
        (.error "bad toml") oldServer).2 = some msg) ∧
    (∀ reg lm,
      processMessage (ReloadConfig (.ok ⟨"etc/logranger.rules.toml"⟩)
          (.error "bad toml") oldServer).1.ruleset reg lm
        = processMessage oldServer.ruleset reg lm) ∧
    (∀ c rules2, (Except.ok ⟨"etc/logranger.rules.toml"⟩ :
        Except String Config) = .ok c →
      NewRuleset (.error "bad toml") = .ok rules2 →
      (ReloadConfig (.ok ⟨"etc/logranger.rules.toml"⟩) (.error "bad toml")
          oldServer).1.ruleset = some ⟨rules2⟩) :=
  ReloadConfig_preserves_ruleset_on_failure oldServer
    (.ok ⟨"etc/logranger.rules.toml"⟩) (.error "bad toml")
    ("failed to load ruleset: " ++ "bad toml") rfl

/-- C6: in the read loop, a plain parse error is logged and the loop keeps
reading the remaining input unchanged (so a following well-formed frame is
still parsed and dispatched), whereas a transport-level `*net.OpError` or
`io.EOF` terminates the handler, which closes the connection. -/
theorem HandleConnection_parse_error_continues :
    (∀ ext e rest,
      HandleConnection ext (.parsed (.parseErr e) :: rest)
        = (.logParseError e :: (HandleConnection ext rest).1,
           (HandleConnection ext rest).2)) ∧
    (∀ ext e lm rest,
      HCEvent.dispatch lm ∈
        (HandleConnection ext
          (.parsed (.parseErr e) :: .parsed (.ok lm) :: rest)).1) ∧
    (∀ ext e rest,
      HandleConnection ext (.parsed (.netErr e) :: rest)
        = ((if ext then [HCEvent.logNetError e] else []) ++ [.close],
           true)) ∧
    (∀ ext rest,
      HandleConnection ext (.parsed .eof :: rest)
        = ((if ext then [HCEvent.logEOF] else []) ++ [.close], true)) := by
  refine ⟨fun ext e rest => rfl, ?_, fun ext e rest => rfl,
    fun ext rest => rfl⟩
  intro ext e lm rest
  show HCEvent.dispatch lm ∈
    HCEvent.logParseError e :: HCEvent.dispatch lm ::
      (HandleConnection ext rest).1
  exact List.mem_cons_of_mem _ (List.mem_cons_self _ _)

/-- A ruleset with one catch-all rule named `"r"`. -/
def catchAllSet : Ruleset := ⟨[⟨"r", none, [], anyRx⟩]⟩

/-- One enumeration of a two-action registry: `file` first. -/
def twoActReg1 : Registry := [("file", okAction), ("mail", okAction)]

/-- The other enumeration of the same two-action registry: `mail` first. -/
def twoActReg2 : Registry := [("mail", okAction), ("file", okAction)]

/-- Counterexample to C7: the dispatcher ranges over the Go map
`actions.Actions`, whose enumeration order is unspecified; two valid
enumerations of the same two-entry registry (they are permutations of each
other) produce the two invocations in different orders, so the invocation
order is not deterministic across dispatches. -/
theorem processMessage_order_not_deterministic_cex :
    List.Perm twoActReg1 twoActReg2 ∧
    (processMessage (some catchAllSet) twoActReg1 diskMsg).1
      ≠ (processMessage (some catchAllSet) twoActReg2 diskMsg).1 := by
  constructor
  · exact List.Perm.swap ("mail", okAction) ("file", okAction) []
  · intro h
    have h2 : Event.invoke "file" "r" ["disk full"] []
        = Event.invoke "mail" "r" ["disk full"] [] := by
      have h3 : (processMessage (some catchAllSet) twoActReg1 diskMsg).1
          = [Event.invoke "file" "r" ["disk full"] [],
             Event.invoke "mail" "r" ["disk full"] []] := rfl
      have h4 : (processMessage (some catchAllSet) twoActReg2 diskMsg).1
          = [Event.invoke "mail" "r" ["disk full"] [],
             Event.invoke "file" "r" ["disk full"] []] := rfl
      rw [h3, h4] at h
      injection h
    injection h2 with hname _ _ _
    exact absurd hname (by decide)

/-- C7 (amended): across the possible enumeration orders of the action
registry map, the dispatch produces the same invocations and error logs up
to permutation — which actions fire, for which rules and with which
arguments is deterministic, but their relative order is not. -/
theorem processMessage_perm_invocations (rs : Ruleset)
    (reg1 reg2 : Registry) (lm : LogMsg) (hperm : List.Perm reg1 reg2) :
    List.Perm (processMessage (some rs) reg1 lm).1
      (processMessage (some rs) reg2 lm).1 := by
  simp only [processMessage]
  apply List.Perm.flatMap_left
  intro r _
  unfold processRule
  rcases r.Regexp.MatchString lm.Message with _ | _
  · simp
  · rcases hostMatchFails r lm with _ | _
    · simp only [Bool.not_true, Bool.false_eq_true, if_false, Bool.not_false,
        if_true]
      exact List.Perm.flatMap_right _ hperm
    · simp

/-- Witness for the amended C7: the two enumerations above give
permutation-equivalent dispatch outputs. -/
theorem processMessage_perm_invocations_witness :
    List.Perm (processMessage (some catchAllSet) twoActReg1 diskMsg).1
      (processMessage (some catchAllSet) twoActReg2 diskMsg).1 :=
  processMessage_perm_invocations catchAllSet twoActReg1 twoActReg2 diskMsg
    (List.Perm.swap ("mail", okAction) ("file", okAction) [])

/-- C8: `Compile` returns an empty string together with the error when the
template fails to parse, and returns the partial output already written
together with the error when parsing succeeds but execution fails. -/
theorem Compile_error_contract {T : Type} (eng : TplEngine T)
    (nowRfc3339 : String) (nowUnix : Int) (lm : LogMsg) (mg : List String)
    (ot : String) :
    (∀ e, eng.parse (escapeTpl ot) = .error e →
      Compile eng nowRfc3339 nowUnix lm mg ot
        = ("", some ("failed to create template: " ++ e))) ∧
    (∀ tpl out e, eng.parse (escapeTpl ot) = .ok tpl →
      eng.exec tpl (tplDataMap lm mg nowRfc3339 nowUnix) = (out, some e) →
      Compile eng nowRfc3339 nowUnix lm mg ot
        = (out, some ("failed to compile template: " ++ e))) := by
  constructor
  · intro e hp
    simp [Compile, hp]
  · intro tpl out e hp hx
    simp [Compile, hp, hx]

/-- An engine whose parser rejects everything with the error `"bad"`. -/
def rejectEngine : TplEngine Unit :=
  ⟨fun _ => .error "bad", fun _ _ => ("", none)⟩

/-- An engine that parses everything and always fails during execution with
`"boom"` after writing the partial output `"par"`. -/
def partialEngine : TplEngine Unit :=
  ⟨fun _ => .ok (), fun _ _ => ("par", some "boom")⟩

/-- Witness for C8: a parse failure yields the empty string plus the error;
an execution failure yields the partial output plus the error. -/
theorem Compile_error_contract_witness :
    Compile rejectEngine "now" 0 diskMsg [] "x"
      = ("", some "failed to create template: bad") ∧
    Compile partialEngine "now" 0 diskMsg [] "x"
      = ("par", some "failed to compile template: boom") :=
  ⟨(Compile_error_contract rejectEngine "now" 0 diskMsg [] "x").1
      "bad" rfl,
   (Compile_error_contract partialEngine "now" 0 diskMsg [] "x").2
      () "par" "boom" rfl rfl⟩

/-- C10: when a rule's action-configuration map has no `"file"` entry, the
file action's `Process` returns a `nil` error and performs no file
operation at all, for every message, match group, template engine and
file-system behaviour. -/
theorem File_Process_skips_without_file_config {T : Type}
    (eng : TplEngine T) (nowRfc3339 : String) (nowUnix : Int) (fs : FsOracle)
    (lm : LogMsg) (mg : List String) (cm : ConfMap)
    (h : cmLookup cm "file" = none) :
    File.Process eng nowRfc3339 nowUnix fs lm mg cm = (.ok (), []) := by
  unfold File.Process
  rw [h]

/-- A file-system oracle whose calls all fail, to show the skip ignores it. -/
def failFs : FsOracle := ⟨some "open fails", some "write fails", some "sync fails"⟩

/-- Witness for C10: with a config map lacking the `"file"` key (here one
holding only a `"syslog"` entry), the file action is a no-op with a `nil`
error even against an all-failing file system. -/
theorem File_Process_skips_without_file_config_witness :
    File.Process rejectEngine "now" 0 failFs diskMsg ["disk full"]
      [("syslog", ConfValue.bool true)] = (.ok (), []) :=
  File_Process_skips_without_file_config rejectEngine "now" 0 failFs diskMsg
    ["disk full"] [("syslog", ConfValue.bool true)] rfl

theorem hexDigit_mem (n : Nat) : hexDigit n ∈ hexAlphabet := by
  unfold hexDigit
  by_cases h : n < hexAlphabet.length
  · rw [List.getD_eq_getElem _ _ h]
    exact List.getElem_mem _
  · rw [List.getD_eq_default _ _ (Nat.le_of_not_lt h)]
    decide

theorem hexString_lowercase (bs : List Nat) :
    ∀ c ∈ (hexString bs).data, c ∈ hexAlphabet := by
  intro c hc
  have hdata : (hexString bs).data = bs.flatMap hexByte := rfl
  rw [hdata] at hc
  rcases List.mem_flatMap.mp hc with ⟨b, _, hcb⟩
  rcases List.mem_cons.mp hcb with h | h
  · rw [h]
    exact hexDigit_mem _
  · rw [List.mem_singleton.mp h]
    exact hexDigit_mem _

set_option maxRecDepth 10000 in
/-- C9: the three digest helpers are pure functions of their input string
(purity is by construction in this embedding), render the digest as
lowercase hexadecimal characters, and agree with the published empty-string
test vectors of the 160-bit, 256-bit and 512-bit algorithms. -/
theorem toSHA_digest_vectors :
    FuncMap.ToSHA1 "" = "da39a3ee5e6b4b0d3255bfef95601890afd80709" ∧
    FuncMap.ToSHA256 ""
      = "e3b0c44298fc1c149afbf4c8996fb92427ae41e4649b934ca495991b7852b855" ∧
    FuncMap.ToSHA512 ""
      = "cf83e1357eefb8bdf1542850d66d8007d620e4050b5715dc83f4a921d36ce9ce47d0d13c5d85f2b0ff8318d2877eec2f63b931bd47417a81a538327af927da3e" ∧
    (∀ s : String, ∀ algo : SHAAlgo, ∀ c ∈ (toSHA s algo).data,
      c ∈ hexAlphabet) := by
  refine ⟨rfl, rfl, rfl, ?_⟩
  intro s algo c hc
  rcases algo
  · exact hexString_lowercase _ c hc
  · exact hexString_lowercase _ c hc
  · exact hexString_lowercase _ c hc

set_option maxRecDepth 10000 in
/-- Witness for C9: the lowercase-hex conjunct applied to the first digit
of the 160-bit digest of the empty string. -/
theorem toSHA_digest_vectors_witness : Char.ofNat 100 ∈ hexAlphabet :=
  toSHA_digest_vectors.2.2.2 "" SHAAlgo.SHA1 (Char.ofNat 100) (by decide)
